import Mathlib

/-!
Verification of the natural-language product search service
(JaySanghaniKD/Product-recommendation-engine).

The repository ships a React frontend (under `frontend/`) together with a
FastAPI backend whose core search pipeline (`app/core/search_agent.py`) is
described by the specification but whose Python sources are not part of the
checked-in tree available here.  Frontend code (the API client, the cart
context, the cart page, the search page and the shared TypeScript models) is
embedded directly from the TypeScript sources.  The backend pipeline
(interpreter, category matcher, tiered retriever, ranker, orchestrator) is
modelled from the specification, as flagged on each such definition.

Numbers that are IEEE doubles in the running program (prices, scores,
similarity thresholds) are embedded as rationals `ℚ`; identifiers are `Nat`
and text is `String`.
-/

/-! ## Shared data model (frontend/src/types/models.ts) -/

/-- The `Product` interface from `frontend/src/types/models.ts`: the catalog item
shape shared by the frontend pages and, per the spec, the store. Optional
TypeScript fields are `Option`s; `price` is embedded as `ℚ`. -/
structure Product where
  id : Nat
  title : String
  description : String
  category : String
  price : ℚ
  brand : Option String
  tags : List String
  justification : Option String
deriving Repr, DecidableEq

/-- The `CartItem` interface from `frontend/src/types/models.ts`. -/
structure CartItem where
  product_id : Nat
  title : String
  price : ℚ
  quantity : Nat
deriving Repr, DecidableEq

/-- The `Cart` interface from `frontend/src/types/models.ts`. -/
structure Cart where
  user_id : String
  items : List CartItem
  last_updated : String
deriving Repr, DecidableEq

/-- The `SearchResult` interface from `frontend/src/types/models.ts` (lines 42-47):
the successful search response shape the frontend declares and consumes. -/
structure SearchResult where
  query_received : String
  user_id : String
  search_results : List Product
  message : String
deriving Repr, DecidableEq

/-- The field names of the `SearchResult` interface, in declaration order,
as they appear on the wire (`frontend/src/types/models.ts` lines 42-47). -/
def searchResultFields : List String :=
  ["query_received", "user_id", "search_results", "message"]

/-! ## Frontend API client (`frontend/src/services/api.ts`) -/

/-- The JSON body posted to `/search/` by `searchProducts` in
`frontend/src/services/api.ts`: `{ user_id: USER_ID, query }`, embedded as an
ordered key/value list. -/
def searchProductsBody (user_id query : String) : List (String × String) :=
  [("user_id", user_id), ("query", query)]

/-- The hardcoded user identifier of the frontend API client. -/
def USER_ID : String := "user_1"

/-! ## Cart context (`frontend/src/context/CartContext.tsx`) -/

/-- Backend cart-service calls the frontend API client can issue
(`getCart`, `addToCart`, `removeFromCart` in `frontend/src/services/api.ts`). -/
inductive ApiCall where
  | getCartCall : String → ApiCall
  | addToCartCall : String → Nat → Nat → ApiCall
  | removeFromCartCall : String → Nat → ApiCall
deriving Repr, DecidableEq

/-- Function `addItemToCart` from `CartContext.tsx`: posts to the backend and replaces
the local cart with the server's updated cart. The server response is an
input, the issued call is recorded. -/
def addItemToCart (productId quantity : Nat) (serverCart : Cart) :
    Option Cart × List ApiCall :=
  (some serverCart, [ApiCall.addToCartCall USER_ID productId quantity])

/-- Function `removeItemFromCart` from `CartContext.tsx`: deletes via the backend and
replaces the local cart with the server's updated cart. -/
def removeItemFromCart (productId : Nat) (serverCart : Cart) :
    Option Cart × List ApiCall :=
  (some serverCart, [ApiCall.removeFromCartCall USER_ID productId])

/-- Function `clearCart` from `CartContext.tsx` (lines 79-84): client-side only; the
non-null previous cart is spread with `items: []` and no API call is made. -/
def clearCart (prev : Cart) : Cart × List ApiCall :=
  ({ prev with items := [] }, [])

/-! ## Cart page totals (`frontend/src/pages/CartPage.tsx`) -/

/-- The `subtotal` on the cart page:
`cart?.items.reduce((sum, item) => sum + (item.price * item.quantity), 0) || 0`. -/
def cartSubtotal (cart : Option Cart) : ℚ :=
  (cart.map fun c =>
    c.items.foldl (fun sum item => sum + item.price * (item.quantity : ℚ)) 0).getD 0

/-- The `taxRate = 0.07` of the cart page. -/
def taxRate : ℚ := 7 / 100

/-- The `tax = subtotal * taxRate` of the cart page. -/
def cartTax (cart : Option Cart) : ℚ := cartSubtotal cart * taxRate

/-- The `total = subtotal + tax` of the cart page. -/
def cartTotal (cart : Option Cart) : ℚ := cartSubtotal cart + cartTax cart

/-! ## Generative query interpreter

The backend pipeline sources (`app/core/search_agent.py` and its
collaborators, listed in the README's project structure) are not present in
the tree, so the pipeline components below are modelled from the
specification. -/

/-- Modelled from the spec: the outcome of one schema-constrained
generative-model call as seen by its caller (missing backend
`app/core/search_agent.py`) — a schema-valid structure, a malformed reply
that fails the schema parse, or the external model being unreachable
(`InterpreterUnavailable` / `RankerUnavailable`). -/
inductive ModelOutcome (α : Type) where
  | ok : α → ModelOutcome α
  | malformed : ModelOutcome α
  | unavailable : ModelOutcome α
deriving Repr, DecidableEq

/-- Modelled from the spec: the `filters` mapping of an `InterpretedIntent`
(price_min?, price_max?, brand?, attribute constraints). -/
structure Filters where
  price_min : Option ℚ
  price_max : Option ℚ
  brand : Option String
  attributes : List String
deriving Repr, DecidableEq

/-- The empty filters mapping `{}`. -/
def emptyFilters : Filters := ⟨none, none, none, []⟩

/-- Modelled from the spec: `InterpretedIntent` as produced by the missing
backend's Generative Query Interpreter. -/
structure InterpretedIntent where
  category_phrases : List String
  filters : Filters
  tags : List String
  intent_summary : String
deriving Repr, DecidableEq

/-- Modelled from the spec: `UserContext` gathered per request from the
history and cart collaborators. -/
structure UserContext where
  recent_search_queries : List String
  cart_snapshot : List (Nat × String)
deriving Repr, DecidableEq

/-- Modelled from the spec: the heuristic fallback intent —
`category_phrases = [raw_text]`, empty filters, no tags,
`intent_summary = raw_text`. -/
def fallbackIntent (raw_text : String) : InterpretedIntent :=
  ⟨[raw_text], emptyFilters, [], raw_text⟩

/-- Modelled from the spec: `interpret(raw_text, context)` of the missing
backend interpreter. One schema-constrained call; on a parse failure one
corrective retry; on a second failure or on `InterpreterUnavailable` the
heuristic fallback. Total — it never raises. -/
def interpret (raw_text : String) (ctx : UserContext)
    (first retry : ModelOutcome InterpretedIntent) : InterpretedIntent :=
  match first with
  | .ok intent => intent
  | .unavailable => fallbackIntent raw_text
  | .malformed =>
    match retry with
    | .ok intent => intent
    | _ => fallbackIntent raw_text

/-! ## Category matcher -/

/-- Modelled from the spec: one `CategoryMatch` per category phrase;
`matched_category` is `none` when no match clears the threshold. -/
structure CategoryMatch where
  phrase : String
  matched_category : Option String
  similarity_score : ℚ
deriving Repr, DecidableEq

/-- Modelled from the spec: `match(category_phrases)` of the missing backend
Category Matcher. Embedding plus nearest-neighbor lookup are abstracted as
`vindex : phrase → best (label, score)`; matches below `threshold` become
null; an unreachable vector index (`idxOk = false`) yields all-null matches
instead of failing. Input phrase order is preserved. -/
def matchCategories (vindex : String → Option (String × ℚ)) (idxOk : Bool)
    (threshold : ℚ) (phrases : List String) : List CategoryMatch :=
  if idxOk then
    phrases.map fun ph =>
      match vindex ph with
      | some (c, s) => if threshold ≤ s then ⟨ph, some c, s⟩ else ⟨ph, none, s⟩
      | none => ⟨ph, none, 0⟩
  else
    phrases.map fun ph => ⟨ph, none, 0⟩

/-- The non-null matched categories, in phrase priority order. -/
def matchedCategories (ms : List CategoryMatch) : List String :=
  ms.filterMap (·.matched_category)

/-! ## Product store -/

/-- Modelled from the spec: the store's result order — natural
relevance/text-match score descending, ties broken by product identifier
ascending. -/
def storeLE (score : Product → ℚ) (p q : Product) : Prop :=
  score q < score p ∨ (score p = score q ∧ p.id ≤ q.id)

instance storeLE.decidableRel (score : Product → ℚ) :
    DecidableRel (storeLE score) := fun _ _ =>
  inferInstanceAs (Decidable (_ ∨ _))

instance storeLE.isTotal (score : Product → ℚ) :
    IsTotal Product (storeLE score) where
  total p q := by
    rcases lt_trichotomy (score p) (score q) with h | h | h
    · exact Or.inr (Or.inl h)
    · rcases Nat.le_total p.id q.id with h' | h'
      · exact Or.inl (Or.inr ⟨h, h'⟩)
      · exact Or.inr (Or.inr ⟨h.symm, h'⟩)
    · exact Or.inl (Or.inl h)

instance storeLE.isTrans (score : Product → ℚ) :
    IsTrans Product (storeLE score) where
  trans p q s hpq hqs := by
    rcases hpq with h1 | ⟨e1, i1⟩
    · rcases hqs with h2 | ⟨e2, _⟩
      · exact Or.inl (h2.trans h1)
      · exact Or.inl (e2 ▸ h1)
    · rcases hqs with h2 | ⟨e2, i2⟩
      · exact Or.inl (e1 ▸ h2)
      · exact Or.inr ⟨e1.trans e2, i1.trans i2⟩

/-- Modelled from the spec: the Product Store's
`query(category?, filters?, text?, limit, offset)` — the products satisfying
the query predicate, in score-descending id-ascending order, truncated to
`limit`. -/
def storeQuery (catalog : List Product) (sel : Product → Bool)
    (score : Product → ℚ) (limit : Nat) : List Product :=
  ((catalog.filter sel).insertionSort (storeLE score)).take limit

/-! ## Candidate retriever — progressive fallback ladder -/

/-- Split a character list into space-separated words (accumulator holds the
current word reversed). -/
def wordsAux : List Char → List Char → List String
  | [], acc => if acc.isEmpty then [] else [String.mk acc.reverse]
  | c :: cs, acc =>
    if c = ' ' then
      if acc.isEmpty then wordsAux cs []
      else String.mk acc.reverse :: wordsAux cs []
    else wordsAux cs (c :: acc)

/-- Words of a text, for the store's free-text match. -/
def wordsOf (s : String) : List String := wordsAux s.data []

/-- Modelled from the spec: free-text match of the query against product
title/description/tags — some query word occurs among the product's title
words, description words or tags. -/
def textMatches (text : String) (p : Product) : Bool :=
  (wordsOf text).any fun w =>
    (wordsOf p.title).contains w || (wordsOf p.description).contains w
      || p.tags.contains w

/-- Product matches one of the matched categories. -/
def inCategories (cats : List String) (p : Product) : Bool :=
  cats.contains p.category

/-- Modelled from the spec: product satisfies the interpreted filters —
price range, brand, and every attribute constraint present among its tags. -/
def matchesFilters (f : Filters) (p : Product) : Bool :=
  (match f.price_min with | none => true | some m => decide (m ≤ p.price))
    && (match f.price_max with | none => true | some m => decide (p.price ≤ m))
    && (match f.brand with | none => true | some b => p.brand == some b)
    && f.attributes.all fun a => p.tags.contains a

/-- Modelled from the spec (§4.4 tier table): the query predicate of each
fallback tier. Tier 0: categories AND filters AND text; tier 1: categories
AND filters; tier 2: categories only; tier 3: filters AND text over the full
catalog; tier 4: unconstrained. -/
def tierPred (t : Nat) (cats : List String) (intent : InterpretedIntent)
    (raw : String) : Product → Bool :=
  match t with
  | 0 => fun p => inCategories cats p && matchesFilters intent.filters p
      && textMatches raw p
  | 1 => fun p => inCategories cats p && matchesFilters intent.filters p
  | 2 => fun p => inCategories cats p
  | 3 => fun p => matchesFilters intent.filters p && textMatches raw p
  | _ => fun _ => true

/-- Modelled from the spec (§4.4 tier table, "Condition to attempt"): the
tiers eligible for a request — 0,1,2,3,4 when at least one non-null matched
category exists, otherwise 3,4 only. -/
def tiersToTry (cats : List String) : List Nat :=
  if cats.isEmpty then [3, 4] else [0, 1, 2, 3, 4]

/-- Result of one retrieval: the first non-empty tier's candidates, the tier
index, and (for analysis) the tiers actually attempted, in order. -/
structure RetrievalResult where
  candidates : List Product
  tier_used : Nat
  attempted : List Nat
deriving Repr, DecidableEq

/-- Modelled from the spec: run the eligible tiers in order, stopping at the
first non-empty result; if all return empty, an empty set with
`tier_used = 4`. -/
def runTiers (catalog : List Product) (cats : List String)
    (intent : InterpretedIntent) (raw : String) (score : Product → ℚ)
    (limit : Nat) : List Nat → RetrievalResult
  | [] => ⟨[], 4, []⟩
  | t :: ts =>
    match storeQuery catalog (tierPred t cats intent raw) score limit with
    | [] =>
      let rest := runTiers catalog cats intent raw score limit ts
      ⟨rest.candidates, rest.tier_used, t :: rest.attempted⟩
    | p :: ps => ⟨p :: ps, t, [t]⟩

/-- Modelled from the spec: the Candidate Retriever's progressive fallback
ladder (missing backend `app/core/search_agent.py`). -/
def retrieve (catalog : List Product) (ms : List CategoryMatch)
    (intent : InterpretedIntent) (raw : String) (score : Product → ℚ)
    (limit : Nat) : RetrievalResult :=
  runTiers catalog (matchedCategories ms) intent raw score limit
    (tiersToTry (matchedCategories ms))

/-! ## Relevance ranker -/

/-- Modelled from the spec: `RankedResult` — product, 1-based dense unique
rank, justification text. -/
structure RankedResult where
  product : Product
  relevance_rank : Nat
  justification : String
deriving Repr, DecidableEq

/-- Modelled from the spec: the generative model's ranking reply — candidate
identifiers ordered by relevance plus a short justification per candidate. -/
structure ModelRanking where
  ordering : List Nat
  justifications : List (Nat × String)
deriving Repr, DecidableEq

/-- The model's justification for a candidate id, empty when absent. -/
def justFor (mr : ModelRanking) (id : Nat) : String :=
  ((mr.justifications.lookup id).getD "")

/-- Remove the first product with the given id from a list, returning it (if
present) and the remaining products in their original order. -/
def extractById (i : Nat) : List Product → Option Product × List Product
  | [] => (none, [])
  | p :: ps =>
    if p.id = i then (some p, ps)
    else
      let r := extractById i ps
      (r.1, p :: r.2)

/-- Walk the model's ordering, picking each mentioned candidate out of the
remaining pool (ids the model invented are skipped); returns the mentioned
candidates in model order with their justifications, and the unmentioned
remainder in original store order. -/
def pickMentioned (mr : ModelRanking) :
    List Nat → List Product → List (Product × String) × List Product
  | [], rem => ([], rem)
  | i :: rest, rem =>
    match extractById i rem with
    | (some p, rem') =>
      let picked := pickMentioned mr rest rem'
      ((p, justFor mr i) :: picked.1, picked.2)
    | (none, _) => pickMentioned mr rest rem

/-- Assign consecutive 1-based ranks by position. -/
def assignRanks : Nat → List (Product × String) → List RankedResult
  | _, [] => []
  | n, (p, j) :: rest => ⟨p, n, j⟩ :: assignRanks (n + 1) rest

/-- Modelled from the spec: `rank(candidates, intent, context)` of the missing
backend Relevance Ranker, capped at the configured maximum result count.
`mr = some m` is the generative model's reply; `mr = none` is
`RankerUnavailable`, whose fallback keeps the original retrieval order with
empty justifications. Candidates the model does not mention are appended at
the end in original store order with empty justification. -/
def rank (candidates : List Product) (mr : Option ModelRanking) (cap : Nat) :
    List RankedResult :=
  let pairs :=
    match mr with
    | none => candidates.map fun p => (p, "")
    | some m =>
      let picked := pickMentioned m m.ordering candidates
      picked.1 ++ picked.2.map fun p => (p, "")
  assignRanks 1 (pairs.take cap)

/-! ## Search orchestrator -/

/-- Modelled from the spec: the only fatal error — `StoreUnavailable`,
surfaced to the caller as a single uniform service-error response. -/
inductive ServiceError where
  | storeUnavailable : ServiceError
deriving Repr, DecidableEq

/-- Modelled from the spec: the terminal `SearchResponse` artifact. -/
structure SearchResponse where
  query_received : String
  results : List RankedResult
  summary : String
  tier_used : Nat
deriving Repr, DecidableEq

/-- The "no products found" summary used when the result list is empty. -/
def noResultsSummary : String := "No products found matching your query."

/-- The generic summary used on the ranker's degraded path. -/
def genericSummary : String := "Here are some products related to your query."

/-- Modelled from the spec: the orchestrator's read-only environment —
catalog, store reachability, vector index (lookup, reachability, threshold),
store scoring, retrieval limit and result-count cap. -/
structure PipelineEnv where
  catalog : List Product
  storeOk : Bool
  vindex : String → Option (String × ℚ)
  idxOk : Bool
  threshold : ℚ
  score : Product → ℚ
  retrieveLimit : Nat
  cap : Nat

/-- Modelled from the spec: the outcomes of one request's generative-model
calls and of its fire-and-forget log call — the non-deterministic inputs of
one run. -/
structure GenOutcomes where
  interpFirst : ModelOutcome InterpretedIntent
  interpRetry : ModelOutcome InterpretedIntent
  ranking : Option ModelRanking
  summaryText : String
  logOk : Bool

/-- The interpreted intent of a run (stage `Interpreting`). -/
def intentOf (g : GenOutcomes) (raw : String) (ctx : UserContext) :
    InterpretedIntent :=
  interpret raw ctx g.interpFirst g.interpRetry

/-- The retrieval result of a run (stages `MatchingCategories` and
`Retrieving`). -/
def retrievalOf (env : PipelineEnv) (g : GenOutcomes) (raw : String)
    (ctx : UserContext) : RetrievalResult :=
  retrieve env.catalog
    (matchCategories env.vindex env.idxOk env.threshold
      (intentOf g raw ctx).category_phrases)
    (intentOf g raw ctx) raw env.score env.retrieveLimit

/-- Modelled from the spec: the Search Orchestrator pipeline
`GatheringContext → Interpreting → MatchingCategories → Retrieving → Ranking
→ Responding`, with `Failed` reachable only from `Retrieving` on
`StoreUnavailable`; every other stage degrades internally. -/
def pipeline (env : PipelineEnv) (g : GenOutcomes) (raw : String)
    (ctx : UserContext) : Except ServiceError SearchResponse :=
  if env.storeOk then
    let R := retrievalOf env g raw ctx
    let ranked := rank R.candidates g.ranking env.cap
    Except.ok
      ⟨raw, ranked,
        if ranked.isEmpty then noResultsSummary
        else match g.ranking with
          | some _ => g.summaryText
          | none => genericSummary,
        R.tier_used⟩
  else Except.error ServiceError.storeUnavailable

/-- Modelled from the spec: the interaction-log event
`{user_id, query, tier_used, result_count}`. -/
structure LogEvent where
  user_id : String
  query : String
  tier_used : Nat
  result_count : Nat
deriving Repr, DecidableEq

/-- Modelled from the spec: the `Responding` state — the already-computed
response is delivered, and the asynchronous fire-and-forget log call either
lands (`logOk = true`) or is lost. -/
def respondAndLog (uid : String) (resp : SearchResponse) (logOk : Bool) :
    SearchResponse × Option LogEvent :=
  (resp,
    if logOk then
      some ⟨uid, resp.query_received, resp.tier_used, resp.results.length⟩
    else none)

/-- Modelled from the spec: one full search request — the pipeline followed,
on success, by respond-and-log. Returns the caller-visible outcome and the
log event that reached the history collaborator (if any). -/
def runSearch (env : PipelineEnv) (g : GenOutcomes) (uid raw : String)
    (ctx : UserContext) :
    Except ServiceError SearchResponse × Option LogEvent :=
  match pipeline env g raw ctx with
  | Except.ok resp =>
    let rl := respondAndLog uid resp g.logOk
    (Except.ok rl.1, rl.2)
  | Except.error e => (Except.error e, none)

/-- The tier of a caller-visible outcome, when it is a success. -/
def tierOf : Except ServiceError SearchResponse → Option Nat
  | Except.ok r => some r.tier_used
  | Except.error _ => none

/-- The returned product identifiers of a caller-visible outcome, in order. -/
def idsOf : Except ServiceError SearchResponse → List Nat
  | Except.ok r => r.results.map (fun x => x.product.id)
  | Except.error _ => []

/-! ## Concrete fixtures used in counterexamples and witnesses -/

/-- A catalog product in category "A". -/
def cexProduct : Product := ⟨1, "Widget A", "great widget", "A", 10, none, [], none⟩

/-- A catalog product in category "B". -/
def cexProductB : Product := ⟨2, "Gadget B", "nice gadget", "B", 20, none, [], none⟩

/-- A category match that cleared no threshold. -/
def nullMatch : CategoryMatch := ⟨"x", none, 0⟩

/-- An empty user context. -/
def ctx0 : UserContext := ⟨[], []⟩

/-- A concrete pipeline environment: two products, reachable store and index,
an index that maps only the phrase "alpha" (to category "A" with score 1). -/
def env0 : PipelineEnv :=
  ⟨[cexProduct, cexProductB], true,
    (fun ph => if ph = "alpha" then some ("A", 1) else none),
    true, 1, (fun _ => 1), 10, 10⟩

/-- Environment `env0` with the product store unreachable. -/
def env0Down : PipelineEnv := { env0 with storeOk := false }

/-- A run whose interpreter call succeeds with the phrase "alpha". -/
def gInterpOk : GenOutcomes :=
  ⟨ModelOutcome.ok ⟨["alpha"], emptyFilters, [], "alpha things"⟩,
    ModelOutcome.malformed, none, "model summary", true⟩

/-- A run whose interpreter call and corrective retry both fail to parse. -/
def gInterpFail : GenOutcomes :=
  ⟨ModelOutcome.malformed, ModelOutcome.malformed, none, "model summary", true⟩

/-- Like `gInterpOk` but with a successful ranking reply. -/
def gRanked : GenOutcomes :=
  ⟨ModelOutcome.ok ⟨["alpha"], emptyFilters, [], "alpha things"⟩,
    ModelOutcome.malformed, some ⟨[2, 1], [(1, "fits the query")]⟩,
    "model summary", true⟩

/-! ### Ranker helper lemmas -/

theorem extractById_none (i : Nat) :
    ∀ l : List Product, (extractById i l).1 = none → (extractById i l).2 = l
  | [] => fun _ => rfl
  | p :: ps => by
    by_cases h : p.id = i
    · simp [extractById, h]
    · intro hn
      simp only [extractById, if_neg h] at hn ⊢
      rw [extractById_none i ps hn]

theorem extractById_some (i : Nat) :
    ∀ (l : List Product) (p : Product), (extractById i l).1 = some p →
      (p :: (extractById i l).2).Perm l
  | [], p => by intro h; simp [extractById] at h
  | q :: ps, p => by
    by_cases h : q.id = i
    · simp only [extractById, if_pos h]
      rintro ⟨rfl⟩
      exact List.Perm.refl _
    · intro hs
      simp only [extractById, if_neg h] at hs ⊢
      exact (List.Perm.swap q p _).trans ((extractById_some i ps p hs).cons q)

theorem extractById_sublist (i : Nat) :
    ∀ l : List Product, (extractById i l).2.Sublist l
  | [] => List.Sublist.refl _
  | p :: ps => by
    by_cases h : p.id = i
    · simp only [extractById, if_pos h]
      exact (List.sublist_cons_self p ps)
    · simp only [extractById, if_neg h]
      exact (extractById_sublist i ps).cons₂ p

theorem pickMentioned_perm (mr : ModelRanking) :
    ∀ (ids : List Nat) (rem : List Product),
      ((pickMentioned mr ids rem).1.map Prod.fst
        ++ (pickMentioned mr ids rem).2).Perm rem
  | [], rem => by simp [pickMentioned]
  | i :: rest, rem => by
    rcases he : extractById i rem with ⟨r1, r2⟩
    cases r1 with
    | none =>
      simp only [pickMentioned, he]
      exact pickMentioned_perm mr rest rem
    | some p =>
      simp only [pickMentioned, he, List.map_cons, List.cons_append]
      have h1 := pickMentioned_perm mr rest r2
      have h2 : (p :: (extractById i rem).2).Perm rem :=
        extractById_some i rem p (by rw [he])
      rw [he] at h2
      exact (h1.cons p).trans h2

theorem pickMentioned_sublist (mr : ModelRanking) :
    ∀ (ids : List Nat) (rem : List Product),
      (pickMentioned mr ids rem).2.Sublist rem
  | [], rem => List.Sublist.refl _
  | i :: rest, rem => by
    rcases he : extractById i rem with ⟨r1, r2⟩
    cases r1 with
    | none =>
      simp only [pickMentioned, he]
      exact pickMentioned_sublist mr rest rem
    | some p =>
      simp only [pickMentioned, he]
      have h1 := pickMentioned_sublist mr rest r2
      have h2 : (extractById i rem).2.Sublist rem := extractById_sublist i rem
      rw [he] at h2
      exact h1.trans h2

theorem assignRanks_map_rank :
    ∀ (n : Nat) (ps : List (Product × String)),
      (assignRanks n ps).map (·.relevance_rank) = List.range' n ps.length
  | _, [] => rfl
  | n, (p, j) :: rest => by
    simp only [assignRanks, List.map_cons, List.length_cons, List.range'_succ]
    rw [assignRanks_map_rank (n + 1) rest]

theorem assignRanks_pairs :
    ∀ (n : Nat) (ps : List (Product × String)),
      (assignRanks n ps).map (fun r => (r.product, r.justification)) = ps
  | _, [] => rfl
  | n, (p, j) :: rest => by
    simp only [assignRanks, List.map_cons]
    rw [assignRanks_pairs (n + 1) rest]

theorem assignRanks_length :
    ∀ (n : Nat) (ps : List (Product × String)),
      (assignRanks n ps).length = ps.length
  | _, [] => rfl
  | n, (p, j) :: rest => by
    simp only [assignRanks, List.length_cons]
    rw [assignRanks_length (n + 1) rest]

theorem assignRanks_map_product :
    ∀ (n : Nat) (ps : List (Product × String)),
      (assignRanks n ps).map (fun r => r.product) = ps.map Prod.fst
  | _, [] => rfl
  | n, (p, j) :: rest => by
    simp only [assignRanks, List.map_cons]
    rw [assignRanks_map_product (n + 1) rest]

/-- Function `rank` returns exactly `min (candidate count) cap` results. -/
theorem rank_length (cs : List Product) (mr : Option ModelRanking)
    (cap : Nat) : (rank cs mr cap).length = min cs.length cap := by
  cases mr with
  | none =>
    simp only [rank, assignRanks_length, List.length_take, List.length_map]
    exact Nat.min_comm _ _
  | some m =>
    simp only [rank, assignRanks_length, List.length_take]
    have h := (pickMentioned_perm m m.ordering cs).length_eq
    simp only [List.length_append, List.length_map] at h ⊢
    rw [h]
    exact Nat.min_comm _ _

/-- Below the cap, `rank` returns a permutation of its candidates. -/
theorem rank_products_perm (cs : List Product) (mr : Option ModelRanking)
    (cap : Nat) (h : cs.length ≤ cap) :
    ((rank cs mr cap).map (fun r => r.product)).Perm cs := by
  have hf : (Prod.fst ∘ fun p : Product => (p, "")) = id := rfl
  cases mr with
  | none =>
    simp only [rank]
    rw [List.take_of_length_le (by simpa using h), assignRanks_map_product,
      List.map_map, hf, List.map_id]
  | some m =>
    simp only [rank]
    have hlen : ((pickMentioned m m.ordering cs).1
        ++ (pickMentioned m m.ordering cs).2.map fun p => (p, "")).length
          = cs.length := by
      have hp := (pickMentioned_perm m m.ordering cs).length_eq
      simpa using hp
    rw [List.take_of_length_le (le_of_eq (hlen.trans rfl) |>.trans h),
      assignRanks_map_product, List.map_append, List.map_map, hf, List.map_id]
    exact pickMentioned_perm m m.ordering cs

/-! ### Helper lemmas for the cart page -/

theorem foldl_add_eq_sum (f : CartItem → ℚ) (a : ℚ) :
    ∀ l : List CartItem, l.foldl (fun s it => s + f it) a = a + (l.map f).sum
  | [] => by simp
  | it :: l => by
    rw [List.foldl_cons, foldl_add_eq_sum f (a + f it) l, List.map_cons,
      List.sum_cons]
    ring

/-- C9: the cart page's displayed totals satisfy
subtotal = Σ price·quantity, tax = 0.07·subtotal, total = subtotal + tax,
with subtotal = 0 for a null or empty cart. -/
theorem cartPage_totals (cart : Option Cart) :
    cartSubtotal cart =
      (match cart with
       | none => 0
       | some c => (c.items.map fun it => it.price * (it.quantity : ℚ)).sum)
    ∧ cartTax cart = (7 / 100 : ℚ) * cartSubtotal cart
    ∧ cartTotal cart = cartSubtotal cart + cartTax cart
    ∧ (cart = none → cartSubtotal cart = 0)
    ∧ (∀ c, cart = some c → c.items = [] → cartSubtotal cart = 0) := by
  refine ⟨?_, ?_, rfl, ?_, ?_⟩
  · cases cart with
    | none => rfl
    | some c =>
      show (c.items.foldl (fun s it => s + it.price * (it.quantity : ℚ)) 0) = _
      rw [foldl_add_eq_sum (fun it => it.price * (it.quantity : ℚ)) 0 c.items,
        zero_add]
  · unfold cartTax taxRate; ring
  · rintro rfl; rfl
  · rintro c rfl h
    show (c.items.foldl _ 0 : ℚ) = 0
    rw [h]; rfl

/-- Witness for C9 at a concrete cart: one item at price 10 with quantity 3
gives subtotal 30, tax 21/10, total 321/10; the empty and null carts give 0. -/
theorem cartPage_totals_witness :
    cartSubtotal (some ⟨"user_1", [⟨1, "gizmo", 10, 3⟩], "t"⟩) = 30
    ∧ cartTax (some ⟨"user_1", [⟨1, "gizmo", 10, 3⟩], "t"⟩) = 21 / 10
    ∧ cartSubtotal none = 0 := by
  have h := cartPage_totals (some ⟨"user_1", [⟨1, "gizmo", 10, 3⟩], "t"⟩)
  have h0 := cartPage_totals (none : Option Cart)
  refine ⟨?_, ?_, h0.2.2.2.1 rfl⟩
  · rw [h.1]; norm_num
  · rw [h.2.1, h.1]; norm_num

/-- C10: `clearCart` empties the items, keeps `user_id` and `last_updated`,
and issues no backend cart-service call. -/
theorem clearCart_client_side_only (c : Cart) :
    (clearCart c).1.items = []
    ∧ (clearCart c).1.user_id = c.user_id
    ∧ (clearCart c).1.last_updated = c.last_updated
    ∧ (clearCart c).2 = [] :=
  ⟨rfl, rfl, rfl, rfl⟩

/-- C3 counterexample: the search request body built by the frontend client
carries the keys `user_id` and `query` (not `query_text`), and the declared
successful response type has fields `query_received`, `user_id`,
`search_results`, `message` (not `results`, `summary`, `tier_used`). -/
theorem searchBoundary_shape_counterexample :
    ¬ ((searchProductsBody USER_ID "wireless earbuds").map Prod.fst =
        ["user_id", "query_text"]
      ∧ searchResultFields =
        ["query_received", "results", "summary", "tier_used"]) := by
  decide

/-! ### Retriever ladder lemmas -/

section RetrieverLemmas

variable (catalog : List Product) (cats : List String)
  (intent : InterpretedIntent) (raw : String) (score : Product → ℚ)
  (limit : Nat)

theorem runTiers_attempted_subset :
    ∀ ts : List Nat,
      ∀ N ∈ (runTiers catalog cats intent raw score limit ts).attempted,
        N ∈ ts := by
  intro ts
  induction ts with
  | nil => intro N h; simp [runTiers] at h
  | cons t ts ih =>
    intro N h
    rcases hq : storeQuery catalog (tierPred t cats intent raw) score limit
      with _ | ⟨p, ps⟩
    · simp only [runTiers, hq] at h
      rcases List.mem_cons.mp h with rfl | h
      · exact List.mem_cons_self N ts
      · exact List.mem_cons_of_mem t (ih N h)
    · simp only [runTiers, hq] at h
      rcases List.mem_cons.mp h with rfl | h
      · exact List.mem_cons_self N ts
      · simp at h

theorem runTiers_head_attempted (t : Nat) (ts : List Nat) :
    t ∈ (runTiers catalog cats intent raw score limit (t :: ts)).attempted := by
  rcases hq : storeQuery catalog (tierPred t cats intent raw) score limit
    with _ | ⟨p, ps⟩
  · simp [runTiers, hq]
  · simp [runTiers, hq]

theorem runTiers_empty_all :
    ∀ ts : List Nat,
      (runTiers catalog cats intent raw score limit ts).candidates = [] →
        (runTiers catalog cats intent raw score limit ts).tier_used = 4
        ∧ (runTiers catalog cats intent raw score limit ts).attempted = ts
        ∧ ∀ M ∈ ts,
            storeQuery catalog (tierPred M cats intent raw) score limit
              = [] := by
  intro ts
  induction ts with
  | nil => exact fun _ => ⟨rfl, rfl, by simp⟩
  | cons t ts ih =>
    intro hc
    rcases hq : storeQuery catalog (tierPred t cats intent raw) score limit
      with _ | ⟨p, ps⟩
    · simp only [runTiers, hq] at hc ⊢
      obtain ⟨h1, h2, h3⟩ := ih hc
      refine ⟨h1, by rw [h2], ?_⟩
      intro M hM
      rcases List.mem_cons.mp hM with rfl | hM
      · exact hq
      · exact h3 M hM
    · simp only [runTiers, hq] at hc
      exact absurd hc (List.cons_ne_nil p ps)

theorem runTiers_nonempty :
    ∀ ts : List Nat,
      (runTiers catalog cats intent raw score limit ts).candidates ≠ [] →
        (runTiers catalog cats intent raw score limit ts).candidates
            = storeQuery catalog
                (tierPred (runTiers catalog cats intent raw score limit
                  ts).tier_used cats intent raw) score limit
        ∧ (runTiers catalog cats intent raw score limit ts).tier_used
            ∈ (runTiers catalog cats intent raw score limit ts).attempted
        ∧ ∀ M ∈ (runTiers catalog cats intent raw score limit ts).attempted,
            M ≠ (runTiers catalog cats intent raw score limit ts).tier_used →
              storeQuery catalog (tierPred M cats intent raw) score limit
                = [] := by
  intro ts
  induction ts with
  | nil => exact fun hc => absurd rfl hc
  | cons t ts ih =>
    intro hc
    rcases hq : storeQuery catalog (tierPred t cats intent raw) score limit
      with _ | ⟨p, ps⟩
    · simp only [runTiers, hq] at hc ⊢
      obtain ⟨h1, h2, h3⟩ := ih hc
      refine ⟨h1, List.mem_cons_of_mem t h2, ?_⟩
      intro M hM hne
      rcases List.mem_cons.mp hM with rfl | hM
      · exact hq
      · exact h3 M hM hne
    · have hr : runTiers catalog cats intent raw score limit (t :: ts)
          = ⟨p :: ps, t, [t]⟩ := by simp [runTiers, hq]
      rw [hr]
      refine ⟨hq.symm, List.mem_cons_self t [], ?_⟩
      intro M hM hne
      rcases List.mem_cons.mp hM with rfl | hM
      · exact absurd rfl hne
      · simp at hM

theorem runTiers_mono :
    ∀ ts : List Nat, ts.Pairwise (· < ·) →
      ∀ N ∈ (runTiers catalog cats intent raw score limit ts).attempted,
        ∀ M ∈ ts, M < N →
          M ∈ (runTiers catalog cats intent raw score limit ts).attempted
          ∧ storeQuery catalog (tierPred M cats intent raw) score limit
              = [] := by
  intro ts
  induction ts with
  | nil => intro _ N hN; simp [runTiers] at hN
  | cons t ts ih =>
    intro hp N hN M hM hMN
    have hpt := (List.pairwise_cons.mp hp).1
    have hpts := (List.pairwise_cons.mp hp).2
    rcases hq : storeQuery catalog (tierPred t cats intent raw) score limit
      with _ | ⟨p, ps⟩
    · simp only [runTiers, hq] at hN ⊢
      rcases List.mem_cons.mp hN with rfl | hN
      · rcases List.mem_cons.mp hM with rfl | hM
        · exact absurd hMN (Nat.lt_irrefl _)
        · exact absurd hMN (Nat.lt_asymm (hpt M hM))
      · rcases List.mem_cons.mp hM with rfl | hM
        · exact ⟨List.mem_cons_self M _, hq⟩
        · obtain ⟨h1, h2⟩ := ih hpts N hN M hM hMN
          exact ⟨List.mem_cons_of_mem t h1, h2⟩
    · simp only [runTiers, hq] at hN ⊢
      rcases List.mem_cons.mp hN with rfl | hN
      · rcases List.mem_cons.mp hM with rfl | hM
        · exact absurd hMN (Nat.lt_irrefl _)
        · exact absurd hMN (Nat.lt_asymm (hpt M hM))
      · simp at hN

end RetrieverLemmas

/-- C1 counterexample: with a catalog containing one product and a category
match list whose matches are all null, the retriever attempts tier 3 without
ever attempting tier 2 — tier N is not in general attempted only after tier
N−1 was attempted and returned empty. -/
theorem retriever_ladder_counterexample :
    ¬ (∀ N ∈ (retrieve [cexProduct] [nullMatch] (fallbackIntent "zzz") "zzz"
          (fun _ => 1) 10).attempted, 1 ≤ N →
        ((N - 1) ∈ (retrieve [cexProduct] [nullMatch] (fallbackIntent "zzz")
            "zzz" (fun _ => 1) 10).attempted
          ∧ storeQuery [cexProduct]
              (tierPred (N - 1)
                (matchedCategories [nullMatch]) (fallbackIntent "zzz") "zzz")
              (fun _ => 1) 10 = [])) := by
  decide

/-- C1 amended: when at least one category matched, the ladder 0,1,2,3,4 is
monotone — tier N is attempted only after tier N−1 was attempted and returned
empty; when no category matched, tiers 0–2 are skipped and the ladder starts
at tier 3. In every case the returned CandidateSet is the one produced by the
first attempted tier with at least one result, tagged with that tier's index,
and if every attempted tier returns empty the retriever returns an empty
CandidateSet with tier_used = 4. -/
theorem retriever_tier_ladder (catalog : List Product)
    (ms : List CategoryMatch) (intent : InterpretedIntent) (raw : String)
    (score : Product → ℚ) (limit : Nat) :
    let cats := matchedCategories ms
    let R := retrieve catalog ms intent raw score limit
    let Q := fun t =>
      storeQuery catalog (tierPred t cats intent raw) score limit
    (cats ≠ [] → ∀ N ∈ R.attempted, 1 ≤ N →
        ((N - 1) ∈ R.attempted ∧ Q (N - 1) = []))
    ∧ (cats = [] →
        (0 ∉ R.attempted ∧ 1 ∉ R.attempted ∧ 2 ∉ R.attempted
          ∧ 3 ∈ R.attempted))
    ∧ (R.candidates ≠ [] →
        (R.candidates = Q R.tier_used ∧ R.tier_used ∈ R.attempted
          ∧ ∀ M ∈ R.attempted, M ≠ R.tier_used → Q M = []))
    ∧ (R.candidates = [] →
        (R.tier_used = 4 ∧ ∀ M ∈ tiersToTry cats, Q M = [])) := by
  intro cats R Q
  have hR : R = runTiers catalog cats intent raw score limit
      (tiersToTry cats) := rfl
  refine ⟨?_, ?_, ?_, ?_⟩
  · intro hne N hN h1N
    have hts : tiersToTry cats = [0, 1, 2, 3, 4] := by
      simp [tiersToTry, List.isEmpty_iff, hne]
    have hsub := runTiers_attempted_subset catalog cats intent raw score limit
      (tiersToTry cats) N (hR ▸ hN)
    rw [hts] at hsub
    have hmono := runTiers_mono catalog cats intent raw score limit
      (tiersToTry cats) (by rw [hts]; decide) N (hR ▸ hN) (N - 1)
    have hprev : N - 1 ∈ tiersToTry cats ∧ N - 1 < N := by
      rw [hts]
      fin_cases hsub
      · exact absurd h1N (by decide)
      all_goals refine ⟨by decide, by decide⟩
    obtain ⟨h1, h2⟩ := hmono hprev.1 hprev.2
    exact ⟨hR ▸ h1, h2⟩
  · intro hnil
    have hts : tiersToTry cats = [3, 4] := by
      simp [tiersToTry, List.isEmpty_iff, hnil]
    have hsub := runTiers_attempted_subset catalog cats intent raw score limit
      (tiersToTry cats)
    rw [hR, hts]
    rw [hts] at hsub
    refine ⟨fun h => by simpa using hsub 0 h,
      fun h => by simpa using hsub 1 h,
      fun h => by simpa using hsub 2 h,
      runTiers_head_attempted catalog cats intent raw score limit 3 [4]⟩
  · intro hc
    have h := runTiers_nonempty catalog cats intent raw score limit
      (tiersToTry cats) (hR ▸ hc)
    exact ⟨hR ▸ h.1, hR ▸ h.2.1, hR ▸ h.2.2⟩
  · intro hc
    have h := runTiers_empty_all catalog cats intent raw score limit
      (tiersToTry cats) (hR ▸ hc)
    refine ⟨hR ▸ h.1, ?_⟩
    intro M hM
    exact h.2.2 M hM

/-- Witness for C1's amended ladder at concrete inputs: with all-null matches
the retriever skips tiers 0–2 and attempts tier 3; with the sole product not
matching tier 3's text query, the all-empty case returns tier_used = 4. -/
theorem retriever_tier_ladder_witness :
    3 ∈ (retrieve [cexProduct] [nullMatch] (fallbackIntent "zzz") "zzz"
        (fun _ => 1) 10).attempted
    ∧ 2 ∉ (retrieve [cexProduct] [nullMatch] (fallbackIntent "zzz") "zzz"
        (fun _ => 1) 10).attempted
    ∧ (retrieve [] [nullMatch] (fallbackIntent "zzz") "zzz"
        (fun _ => 1) 10).tier_used = 4 := by
  have h := retriever_tier_ladder [cexProduct] [nullMatch]
    (fallbackIntent "zzz") "zzz" (fun _ => 1) 10
  have h2 := retriever_tier_ladder [] [nullMatch]
    (fallbackIntent "zzz") "zzz" (fun _ => 1) 10
  have hm := h.2.1 (by decide)
  refine ⟨hm.2.2.2, hm.2.2.1, (h2.2.2.2 (by decide)).1⟩

/-- C3 amended: every search request body has exactly the keys
`user_id` and `query`, in that order, and the successful response shape is
`SearchResult` with fields `query_received`, `user_id`, `search_results`
(ordered sequence of Product) and `message`. -/
theorem searchBoundary_shape (uid q : String) :
    (searchProductsBody uid q).map Prod.fst = ["user_id", "query"]
    ∧ searchResultFields = ["query_received", "user_id", "search_results", "message"]
    ∧ ∀ r : SearchResult,
        r = ⟨r.query_received, r.user_id, r.search_results, r.message⟩ :=
  ⟨rfl, rfl, fun _ => rfl⟩

/-- C2: the relevance ranks of the ranker's output — on the normal path and
on every fallback path — are exactly 1, 2, ..., N in order, with
N = min(candidate count, configured cap): no duplicates, no gaps. -/
theorem ranker_rank_density (cs : List Product) (mr : Option ModelRanking)
    (cap : Nat) :
    (rank cs mr cap).map (fun r => r.relevance_rank)
      = List.range' 1 (min cs.length cap) := by
  cases mr with
  | none =>
    simp only [rank]
    rw [assignRanks_map_rank, List.length_take, List.length_map,
      Nat.min_comm]
  | some m =>
    simp only [rank]
    rw [assignRanks_map_rank, List.length_take]
    have h := (pickMentioned_perm m m.ordering cs).length_eq
    simp only [List.length_append, List.length_map] at h ⊢
    rw [h, Nat.min_comm]

/-- C4: if the interpreter's schema parse fails twice (initial call plus the
corrective retry) or the external model is unreachable, `interpret` returns
the heuristic fallback intent — `category_phrases = [raw]`, empty filters,
no tags, `intent_summary = raw`; being total, it never raises. -/
theorem interpreter_heuristic_fallback (raw : String) (ctx : UserContext)
    (first retry : ModelOutcome InterpretedIntent)
    (h : first = ModelOutcome.unavailable
      ∨ (first = ModelOutcome.malformed
          ∧ ∀ i, retry ≠ ModelOutcome.ok i)) :
    interpret raw ctx first retry = fallbackIntent raw
    ∧ (interpret raw ctx first retry).category_phrases = [raw]
    ∧ (interpret raw ctx first retry).filters = emptyFilters
    ∧ (interpret raw ctx first retry).tags = []
    ∧ (interpret raw ctx first retry).intent_summary = raw := by
  have he : interpret raw ctx first retry = fallbackIntent raw := by
    rcases h with rfl | ⟨rfl, hr⟩
    · rfl
    · cases retry with
      | ok i => exact absurd rfl (hr i)
      | malformed => rfl
      | unavailable => rfl
  exact ⟨he, by rw [he]; rfl, by rw [he]; rfl, by rw [he]; rfl,
    by rw [he]; rfl⟩

/-- Witness for C4: a doubly-malformed interpreter reply on the query
"wireless earbuds" yields the heuristic fallback intent. -/
theorem interpreter_heuristic_fallback_witness :
    interpret "wireless earbuds" ctx0 ModelOutcome.malformed
        ModelOutcome.malformed
      = fallbackIntent "wireless earbuds" :=
  (interpreter_heuristic_fallback "wireless earbuds" ctx0 _ _
    (Or.inr ⟨rfl, fun i hh => ModelOutcome.noConfusion hh⟩)).1

/-- C5: the ranker returns exactly min(candidate count, cap) results; on the
`RankerUnavailable` fallback it returns the candidates in original retrieval
order each with empty justification; on the normal path the output is the
model-mentioned candidates followed by the unmentioned ones in their original
store order with empty justifications, and below the cap no candidate is ever
dropped. -/
theorem ranker_count_and_fallback (cs : List Product)
    (mr : Option ModelRanking) (cap : Nat) :
    (rank cs mr cap).length = min cs.length cap
    ∧ (mr = none →
        (rank cs none cap).map (fun r => (r.product, r.justification))
          = (cs.map fun p => (p, "")).take cap)
    ∧ (∀ m, mr = some m →
        ∃ (ms : List (Product × String)) (rest : List Product),
          (rank cs (some m) cap).map (fun r => (r.product, r.justification))
              = (ms ++ rest.map fun p => (p, "")).take cap
            ∧ rest.Sublist cs
            ∧ (ms.map Prod.fst ++ rest).Perm cs)
    ∧ (cs.length ≤ cap →
        ((rank cs mr cap).map (fun r => r.product)).Perm cs) := by
  refine ⟨rank_length cs mr cap, ?_, ?_, rank_products_perm cs mr cap⟩
  · intro _
    simp only [rank]
    rw [assignRanks_pairs]
  · intro m _
    refine ⟨(pickMentioned m m.ordering cs).1,
      (pickMentioned m m.ordering cs).2, ?_,
      pickMentioned_sublist m m.ordering cs,
      pickMentioned_perm m m.ordering cs⟩
    simp only [rank]
    rw [assignRanks_pairs]

/-- Witness for C5 at concrete inputs: with a two-product candidate list, a
model reply mentioning only product 2 keeps both products (a permutation of
the input), and the unavailable-ranker fallback returns the candidates in
original order with empty justifications. -/
theorem ranker_count_and_fallback_witness :
    ((rank [cexProduct, cexProductB] (some ⟨[2], []⟩) 10).map
        (fun r => r.product)).Perm [cexProduct, cexProductB]
    ∧ (rank [cexProduct, cexProductB] none 10).map
        (fun r => (r.product, r.justification))
      = ([cexProduct, cexProductB].map fun p => (p, "")).take 10 := by
  refine ⟨(ranker_count_and_fallback [cexProduct, cexProductB]
      (some ⟨[2], []⟩) 10).2.2.2 (by decide), ?_⟩
  exact (ranker_count_and_fallback [cexProduct, cexProductB] none 10).2.1 rfl

/-- C6: the caller receives exactly one of two outcomes — a well-formed
SearchResponse (possibly with empty results and the no-products-found
summary) when the store is reachable, or the single uniform service-error
when it is not; an empty result set is a successful response, distinct from
the StoreUnavailable error. -/
theorem orchestrator_two_outcomes (env : PipelineEnv) (g : GenOutcomes)
    (raw : String) (ctx : UserContext) :
    (env.storeOk = false →
      pipeline env g raw ctx = Except.error ServiceError.storeUnavailable)
    ∧ (env.storeOk = true →
        ∃ resp, pipeline env g raw ctx = Except.ok resp
          ∧ resp.query_received = raw
          ∧ resp.results.length ≤ env.cap
          ∧ (resp.results = [] → resp.summary = noResultsSummary))
    ∧ ∀ (r : SearchResponse) (e : ServiceError),
        (Except.ok r : Except ServiceError SearchResponse)
          ≠ Except.error e := by
  refine ⟨?_, ?_, fun r e hre => Except.noConfusion hre⟩
  · intro h
    simp [pipeline, h]
  · intro h
    have hp : pipeline env g raw ctx = Except.ok
        ⟨raw,
          rank (retrievalOf env g raw ctx).candidates g.ranking env.cap,
          if (rank (retrievalOf env g raw ctx).candidates g.ranking
              env.cap).isEmpty then noResultsSummary
          else match g.ranking with
            | some _ => g.summaryText
            | none => genericSummary,
          (retrievalOf env g raw ctx).tier_used⟩ := by
      simp [pipeline, h]
    refine ⟨_, hp, rfl, ?_, ?_⟩
    · show (rank _ _ _).length ≤ env.cap
      rw [rank_length]
      exact Nat.min_le_right _ _
    · intro hempty
      dsimp only at hempty ⊢
      rw [hempty]
      rfl

/-- Witness for C6: with the store down the concrete environment yields the
service error; with the store up it yields a successful response. -/
theorem orchestrator_two_outcomes_witness :
    pipeline env0Down gInterpOk "zzz" ctx0
        = Except.error ServiceError.storeUnavailable
    ∧ ∃ resp, pipeline env0 gInterpOk "zzz" ctx0 = Except.ok resp := by
  refine ⟨(orchestrator_two_outcomes env0Down gInterpOk "zzz" ctx0).1 rfl, ?_⟩
  obtain ⟨resp, hr, -⟩ :=
    (orchestrator_two_outcomes env0 gInterpOk "zzz" ctx0).2.1 rfl
  exact ⟨resp, hr⟩

/-- C8: logging is fire-and-forget — for every search, the caller-visible
outcome of `runSearch` is the same whether the asynchronous log call to the
history collaborator succeeds or fails. -/
theorem logging_fire_and_forget (env : PipelineEnv) (g : GenOutcomes)
    (uid raw : String) (ctx : UserContext) (b1 b2 : Bool) :
    (runSearch env { g with logOk := b1 } uid raw ctx).1
      = (runSearch env { g with logOk := b2 } uid raw ctx).1 := by
  have hp : pipeline env { g with logOk := b1 } raw ctx
      = pipeline env { g with logOk := b2 } raw ctx := rfl
  simp only [runSearch, hp]
  cases hpe : pipeline env { g with logOk := b2 } raw ctx with
  | ok resp => simp [respondAndLog]
  | error e => simp

/-- C7 counterexample: two runs of the pipeline on the same query "zzz" with
the same catalog and the same user context, differing only in the
generative interpreter's outcome (a schema-valid reply versus a double parse
failure), yield different tier_used and different product-identifier sets —
run-to-run idempotence does not hold against interpreter non-determinism. -/
theorem idempotence_counterexample :
    ¬ (tierOf (pipeline env0 gInterpOk "zzz" ctx0)
          = tierOf (pipeline env0 gInterpFail "zzz" ctx0)
        ∧ idsOf (pipeline env0 gInterpOk "zzz" ctx0)
          = idsOf (pipeline env0 gInterpFail "zzz" ctx0)) := by
  decide

/-- C7 amended: two runs with the same query, catalog and context, and the
same interpreter outcomes, deliver the same response whenever the remaining
generative outcomes also agree; regardless of the ranking outcome they agree
on tier_used, and — when the candidate count is within the cap — on the set
of product identifiers; within any store query, products tying on score
appear in identifier-ascending order. -/
theorem idempotence_amended :
    (∀ (env : PipelineEnv) (g1 g2 : GenOutcomes) (raw : String)
        (ctx : UserContext),
      g1.interpFirst = g2.interpFirst → g1.interpRetry = g2.interpRetry →
      g1.ranking = g2.ranking → g1.summaryText = g2.summaryText →
        pipeline env g1 raw ctx = pipeline env g2 raw ctx)
    ∧ (∀ (env : PipelineEnv) (g1 g2 : GenOutcomes) (raw : String)
        (ctx : UserContext),
      g1.interpFirst = g2.interpFirst → g1.interpRetry = g2.interpRetry →
        tierOf (pipeline env g1 raw ctx) = tierOf (pipeline env g2 raw ctx))
    ∧ (∀ (env : PipelineEnv) (g1 g2 : GenOutcomes) (raw : String)
        (ctx : UserContext),
      g1.interpFirst = g2.interpFirst → g1.interpRetry = g2.interpRetry →
      (retrievalOf env g1 raw ctx).candidates.length ≤ env.cap →
        (idsOf (pipeline env g1 raw ctx)).Perm
          (idsOf (pipeline env g2 raw ctx)))
    ∧ (∀ (catalog : List Product) (sel : Product → Bool)
        (score : Product → ℚ) (limit : Nat)
        (i j : Fin (storeQuery catalog sel score limit).length),
      i < j →
      score ((storeQuery catalog sel score limit).get i)
          = score ((storeQuery catalog sel score limit).get j) →
        ((storeQuery catalog sel score limit).get i).id
          ≤ ((storeQuery catalog sel score limit).get j).id) := by
  refine ⟨?_, ?_, ?_, ?_⟩
  · intro env g1 g2 raw ctx h1 h2 h3 h4
    cases g1; cases g2
    dsimp only at h1 h2 h3 h4
    subst h1; subst h2; subst h3; subst h4
    rfl
  · intro env g1 g2 raw ctx h1 h2
    have hR : retrievalOf env g1 raw ctx = retrievalOf env g2 raw ctx := by
      simp only [retrievalOf, intentOf]
      rw [h1, h2]
    cases hs : env.storeOk with
    | false => simp [pipeline, hs, tierOf]
    | true => simp [pipeline, hs, tierOf, hR]
  · intro env g1 g2 raw ctx h1 h2 hlen
    have hR : retrievalOf env g1 raw ctx = retrievalOf env g2 raw ctx := by
      simp only [retrievalOf, intentOf]
      rw [h1, h2]
    cases hs : env.storeOk with
    | false =>
      simp [pipeline, hs, idsOf]
    | true =>
      simp only [pipeline, hs, if_true, idsOf, ← hR]
      have p1 := rank_products_perm (retrievalOf env g1 raw ctx).candidates
        g1.ranking env.cap hlen
      have p2 := rank_products_perm (retrievalOf env g1 raw ctx).candidates
        g2.ranking env.cap hlen
      have h12 := (p1.trans p2.symm).map (fun p : Product => p.id)
      simpa [List.map_map, Function.comp] using h12
  · intro catalog sel score limit i j hij hsc
    have hs : List.Sorted (storeLE score)
        (storeQuery catalog sel score limit) :=
      List.Pairwise.sublist (List.take_sublist _ _)
        (List.sorted_insertionSort _ _)
    have hrel := hs.rel_get_of_lt hij
    rcases hrel with hlt | ⟨heq, hle⟩
    · rw [hsc] at hlt
      exact absurd hlt (lt_irrefl _)
    · exact hle

/-- Witness for C7's amended idempotence at concrete inputs: two runs that
agree on the interpreter outcome but differ in the ranking outcome agree on
tier_used, and their identifier lists are permutations of each other. -/
theorem idempotence_amended_witness :
    tierOf (pipeline env0 gInterpOk "zzz" ctx0)
        = tierOf (pipeline env0 gRanked "zzz" ctx0)
    ∧ (idsOf (pipeline env0 gInterpOk "zzz" ctx0)).Perm
        (idsOf (pipeline env0 gRanked "zzz" ctx0)) := by
  refine ⟨idempotence_amended.2.1 env0 gInterpOk gRanked "zzz" ctx0 rfl rfl,
    idempotence_amended.2.2.1 env0 gInterpOk gRanked "zzz" ctx0 rfl rfl
      (by decide)⟩
